import Mathlib

/-!
Verification development for the `contact` repository (Next.js contact-relay
form).  The embedded code is:

* `src/lib/id.ts` — name normalization and HMAC-SHA256 identifier derivation
  (`normalizeName`, `makeHashedId`);
* `src/app/api/send/route.ts` — the zod validation schema (`sendSchema`),
  HTML escaping (`sanitizeHtml`), the two body renderers (`renderHtml`,
  `renderText`) and the `POST` handler.

JavaScript strings are modeled as Lean `String`s (the inputs relevant here are
ASCII, where JS UTF-16 length and Lean codepoint length agree).  Machine
integers in the SHA-256 core are `Nat` with explicit `% 2 ^ 32`.
-/

/-! ### JavaScript string primitives -/

/-- The character set matched by JavaScript `\s` and removed by
`String.prototype.trim` (WhiteSpace ∪ LineTerminator). -/
def jsWs (c : Char) : Bool :=
  [9, 10, 11, 12, 13, 32, 160, 5760, 8192, 8193, 8194, 8195, 8196, 8197, 8198,
    8199, 8200, 8201, 8202, 8232, 8233, 8239, 8287, 12288, 65279].contains c.toNat

/-- Left half of JS `trim`: drop leading whitespace. -/
def trimL (l : List Char) : List Char := l.dropWhile jsWs

/-- Right half of JS `trim`: drop trailing whitespace. -/
def trimR (l : List Char) : List Char := (l.reverse.dropWhile jsWs).reverse

/-- JavaScript `String.prototype.trim`. -/
def jsTrimS (s : String) : String := ⟨trimR (trimL s.data)⟩

/-- JavaScript `.replace(/\s+/g, ' ')`: each maximal run of whitespace becomes
a single space. -/
def collapseWs : List Char → List Char
  | [] => []
  | [c] => if jsWs c then [' '] else [c]
  | c₁ :: c₂ :: rest =>
    if jsWs c₁ && jsWs c₂ then collapseWs (c₂ :: rest)
    else (if jsWs c₁ then ' ' else c₁) :: collapseWs (c₂ :: rest)

/-- ASCII case folding (`String.prototype.toLowerCase` restricted to the ASCII
range; all strings exercised by the repository are ASCII). -/
def lowerAscii (c : Char) : Char :=
  if 65 ≤ c.toNat && c.toNat ≤ 90 then Char.ofNat (c.toNat + 32) else c

/-- `[a-z]` test, used by the final `.replace(/[^a-z]/g, '')`. -/
def isLowerAlpha (c : Char) : Bool := 97 ≤ c.toNat && c.toNat ≤ 122

/-! ### `src/lib/id.ts` — `normalizeName` -/

/-- `normalizeName` from `src/lib/id.ts`: trim, collapse whitespace runs to a
single space, lowercase, keep only `a`–`z`. -/
def normalizeName (s : String) : String :=
  ⟨((collapseWs (trimR (trimL s.data))).map lowerAscii).filter isLowerAlpha⟩

/-! ### SHA-256 and HMAC (the Node `crypto` collaborator used by
`makeHashedId`).  Words are `Nat`s kept below `2 ^ 32`. -/

def w32 : Nat := 4294967296

def rotr (k n : Nat) : Nat := ((n >>> k) ||| (n <<< (32 - k))) % w32

def shaCh (e f g : Nat) : Nat := ((e &&& f) ^^^ ((e ^^^ 4294967295) &&& g)) % w32

def shaMaj (a b c : Nat) : Nat := ((a &&& b) ^^^ (a &&& c) ^^^ (b &&& c)) % w32

def bsig0 (n : Nat) : Nat := (rotr 2 n ^^^ rotr 13 n ^^^ rotr 22 n) % w32

def bsig1 (n : Nat) : Nat := (rotr 6 n ^^^ rotr 11 n ^^^ rotr 25 n) % w32

def ssig0 (n : Nat) : Nat := (rotr 7 n ^^^ rotr 18 n ^^^ (n >>> 3)) % w32

def ssig1 (n : Nat) : Nat := (rotr 17 n ^^^ rotr 19 n ^^^ (n >>> 10)) % w32

/-- The 64 SHA-256 round constants. -/
def shaK : List Nat :=
  [1116352408, 1899447441, 3049323471, 3921009573, 961987163, 1508970993,
   2453635748, 2870763221, 3624381080, 310598401, 607225278, 1426881987,
   1925078388, 2162078206, 2614888103, 3248222580, 3835390401, 4022224774,
   264347078, 604807628, 770255983, 1249150122, 1555081692, 1996064986,
   2554220882, 2821834349, 2952996808, 3210313671, 3336571891, 3584528711,
   113926993, 338241895, 666307205, 773529912, 1294757372, 1396182291,
   1695183700, 1986661051, 2177026350, 2456956037, 2730485921, 2820302411,
   3259730800, 3345764771, 3516065817, 3600352804, 4094571909, 275423344,
   430227734, 506948616, 659060556, 883997877, 958139571, 1322822218,
   1537002063, 1747873779, 1955562222, 2024104815, 2227730452, 2361852424,
   2428436474, 2756734187, 3204031479, 3329325298]

/-- SHA-256 chaining state: eight 32-bit words. -/
structure Hash8 where
  a : Nat
  b : Nat
  c : Nat
  d : Nat
  e : Nat
  f : Nat
  g : Nat
  h : Nat

/-- SHA-256 initial hash value. -/
def shaInit : Hash8 :=
  ⟨1779033703, 3144134277, 1013904242, 2773480762,
   1359893119, 2600822924, 528734635, 1541459225⟩

/-- Big-endian 4-byte groups to 32-bit words. -/
def toWords : List Nat → List Nat
  | b0 :: b1 :: b2 :: b3 :: rest =>
    (b0 * 16777216 + b1 * 65536 + b2 * 256 + b3) :: toWords rest
  | _ => []

/-- SHA-256 message schedule over one block. -/
def msgW (block : List Nat) : Nat → Nat
  | t =>
    if t < 16 then block.getD t 0
    else (ssig1 (msgW block (t - 2)) + msgW block (t - 7) +
          ssig0 (msgW block (t - 15)) + msgW block (t - 16)) % w32

/-- One SHA-256 round. -/
def roundStep (w : Nat → Nat) (st : Hash8) (t : Nat) : Hash8 :=
  let t1 := (st.h + bsig1 st.e + shaCh st.e st.f st.g + shaK.getD t 0 + w t) % w32
  let t2 := (bsig0 st.a + shaMaj st.a st.b st.c) % w32
  ⟨(t1 + t2) % w32, st.a, st.b, st.c, (st.d + t1) % w32, st.e, st.f, st.g⟩

/-- SHA-256 compression of a single 64-byte block. -/
def compress (st : Hash8) (block : List Nat) : Hash8 :=
  let r := (List.range 64).foldl (roundStep (msgW (toWords block))) st
  ⟨(st.a + r.a) % w32, (st.b + r.b) % w32, (st.c + r.c) % w32, (st.d + r.d) % w32,
   (st.e + r.e) % w32, (st.f + r.f) % w32, (st.g + r.g) % w32, (st.h + r.h) % w32⟩

/-- Iterate the compression function over successive 64-byte blocks. -/
def processBlocks (st : Hash8) (l : List Nat) : Hash8 :=
  if h : l = [] then st
  else processBlocks (compress st (l.take 64)) (l.drop 64)
termination_by l.length
decreasing_by
  simp only [List.length_drop]
  have : l.length ≠ 0 := fun hn => h (List.length_eq_zero.mp hn)
  omega

/-- Big-endian bytes of a 64-bit length value. -/
def lenBytes (n : Nat) : List Nat :=
  [n / 72057594037927936 % 256, n / 281474976710656 % 256,
   n / 1099511627776 % 256, n / 4294967296 % 256,
   n / 16777216 % 256, n / 65536 % 256, n / 256 % 256, n % 256]

/-- SHA-256 padding: `0x80`, zeros to 56 mod 64, 8-byte bit length. -/
def shaPad (ms : List Nat) : List Nat :=
  ms ++ 128 :: List.replicate ((119 - ms.length % 64) % 64) 0 ++ lenBytes (8 * ms.length)

/-- Big-endian bytes of one 32-bit word. -/
def wordBytes (n : Nat) : List Nat :=
  [n / 16777216 % 256, n / 65536 % 256, n / 256 % 256, n % 256]

/-- Serialize the final chaining state to the 32-byte digest. -/
def digestBytes (st : Hash8) : List Nat :=
  wordBytes st.a ++ wordBytes st.b ++ wordBytes st.c ++ wordBytes st.d ++
  wordBytes st.e ++ wordBytes st.f ++ wordBytes st.g ++ wordBytes st.h

/-- SHA-256 of a byte sequence. -/
def sha256 (ms : List Nat) : List Nat := digestBytes (processBlocks shaInit (shaPad ms))

/-- HMAC-SHA256 (`crypto.createHmac('sha256', key)`). -/
def hmacSha256 (key msg : List Nat) : List Nat :=
  let k0 := if 64 < key.length then sha256 key else key
  let kp := k0 ++ List.replicate (64 - k0.length) 0
  sha256 ((kp.map fun b => b ^^^ 92) ++ sha256 ((kp.map fun b => b ^^^ 54) ++ msg))

/-- UTF-8 encoding of one character. -/
def utf8Bytes (c : Char) : List Nat :=
  let n := c.toNat
  if n < 128 then [n]
  else if n < 2048 then [192 ||| (n >>> 6), 128 ||| (n &&& 63)]
  else if n < 65536 then
    [224 ||| (n >>> 12), 128 ||| ((n >>> 6) &&& 63), 128 ||| (n &&& 63)]
  else
    [240 ||| (n >>> 18), 128 ||| ((n >>> 12) &&& 63),
     128 ||| ((n >>> 6) &&& 63), 128 ||| (n &&& 63)]

/-- UTF-8 bytes of a string (Node strings are hashed as UTF-8). -/
def strBytes (s : String) : List Nat := s.data.flatMap utf8Bytes

/-- Lowercase hexadecimal digit characters, as produced by `digest('hex')`. -/
def hexDigit (n : Nat) : Char := "0123456789abcdef".data.getD n '0'

/-- Node `digest('hex')`: two lowercase hex characters per byte. -/
def bytesToHex (bs : List Nat) : List Char :=
  bs.flatMap fun b => [hexDigit (b / 16 % 16), hexDigit (b % 16)]

/-! ### `src/lib/id.ts` — `makeHashedId` -/

/-- `const secret = process.env.HASH_SECRET || 'default-secret'`: the
environment variable is modeled as `Option String`; JS `||` falls back on
`undefined` and on the empty string alike. -/
def secretOf (hashSecretEnv : Option String) : String :=
  match hashSecretEnv with
  | none => "default-secret"
  | some s => if s = "" then "default-secret" else s

/-- `makeHashedId` from `src/lib/id.ts`: HMAC-SHA256 of the normalized name
keyed by the secret, rendered as lowercase hex, truncated to the first 16 hex
characters (`.digest('hex').substring(0, 16)`). -/
def makeHashedId (hashSecretEnv : Option String) (firstName : String) : String :=
  ⟨(bytesToHex (hmacSha256 (strBytes (secretOf hashSecretEnv))
      (strBytes (normalizeName firstName)))).take 16⟩

/-! ### `src/app/api/send/route.ts` — validation schema -/

/-- The payload shape parsed from the request body.  `subject` is
`z.string().max(200).optional()`, hence `Option String`. -/
structure Submission where
  staffId : String
  name : String
  email : String
  subject : Option String
  message : String
deriving DecidableEq, Repr

/-- A zod issue: the offending field and an issue code. -/
structure FieldIssue where
  field : String
  code : String
deriving DecidableEq, Repr

/-- One zod string check: empty issue list when the check passes. -/
def zCheck (ok : Bool) (field code : String) : List FieldIssue :=
  if ok then [] else [⟨field, code⟩]

def isUpperAlphaCh (c : Char) : Bool := 65 ≤ c.toNat && c.toNat ≤ 90

def isAlphaCh (c : Char) : Bool := isLowerAlpha c || isUpperAlphaCh c

def isDigitCh (c : Char) : Bool := 48 ≤ c.toNat && c.toNat ≤ 57

def isAlnumCh (c : Char) : Bool := isAlphaCh c || isDigitCh c

/-- Characters allowed in the local part of zod's email regex
(`[A-Za-z0-9_'+\-\.]`; code 39 is the apostrophe). -/
def localChar (c : Char) : Bool :=
  isAlnumCh c || c = '_' || c.toNat = 39 || c = '+' || c = '-' || c = '.'

/-- Characters allowed as the last character of the local part
(`[A-Za-z0-9_+-]`). -/
def localEndChar (c : Char) : Bool :=
  isAlnumCh c || c = '_' || c = '+' || c = '-'

/-- Two consecutive dots somewhere in the string (the regex's
`(?!.*\.\.)` lookahead). -/
def hasDotDot : List Char → Bool
  | [] => false
  | [_] => false
  | a :: b :: r => (a = '.' && b = '.') || hasDotDot (b :: r)

/-- Split a character list at the dots. -/
def splitDots : List Char → List (List Char)
  | [] => [[]]
  | c :: rest =>
    match splitDots rest with
    | [] => [[c]]
    | h :: t => if c = '.' then [] :: h :: t else (c :: h) :: t

/-- A non-final domain label: `[A-Za-z0-9][A-Za-z0-9\-]*`. -/
def labelOk : List Char → Bool
  | [] => false
  | c :: rest => isAlnumCh c && rest.all fun x => isAlnumCh x || x = '-'

/-- The final label: `[A-Za-z]{2,}`. -/
def tldOk (lab : List Char) : Bool := 2 ≤ lab.length && lab.all isAlphaCh

/-- The domain part of zod's email regex:
`([A-Za-z0-9][A-Za-z0-9\-]*\.)+[A-Za-z]{2,}`. -/
def domainOk (l : List Char) : Bool :=
  let parts := splitDots l
  2 ≤ parts.length && parts.dropLast.all labelOk && tldOk (parts.getLastD [])

/-- Modeled from zod's `.email()` validator (the library collaborator of
`sendSchema`): the regex
`^(?!\.)(?!.*\.\.)([A-Za-z0-9_'+\-\.]*)[A-Za-z0-9_+-]@([A-Za-z0-9][A-Za-z0-9\-]*\.)+[A-Za-z]{2,}$`,
expressed as a structural checker (exactly one `@`; local part over the
allowed class ending in a non-dot, non-apostrophe character; dot-separated
domain labels with an alphabetic TLD; no leading dot and no `..`). -/
def zodEmailValid (s : String) : Bool :=
  let l := s.data
  let localPart := l.takeWhile fun c => c ≠ '@'
  match l.dropWhile fun c => c ≠ '@' with
  | [] => false
  | _ :: domain =>
    !(domain.contains '@') &&
    (match l with
     | [] => false
     | c :: _ => c ≠ '.') &&
    !(hasDotDot l) &&
    !(localPart.isEmpty) &&
    localPart.all localChar &&
    localEndChar (localPart.getLastD ' ') &&
    domainOk domain

/-- The issues `sendSchema.parse` raises on a payload, field by field:
`staffId: z.string().min(8).max(128)`, `name: z.string().min(1).max(120)`,
`email: z.string().email().max(254)`, `subject: z.string().max(200).optional()`,
`message: z.string().min(1).max(5000)`. -/
def sendSchemaIssues (p : Submission) : List FieldIssue :=
  zCheck (8 ≤ p.staffId.length) "staffId" "too_small" ++
  zCheck (p.staffId.length ≤ 128) "staffId" "too_big" ++
  zCheck (1 ≤ p.name.length) "name" "too_small" ++
  zCheck (p.name.length ≤ 120) "name" "too_big" ++
  zCheck (zodEmailValid p.email) "email" "invalid_email" ++
  zCheck (p.email.length ≤ 254) "email" "too_big" ++
  (match p.subject with
   | none => []
   | some s => zCheck (s.length ≤ 200) "subject" "too_big") ++
  zCheck (1 ≤ p.message.length) "message" "too_small" ++
  zCheck (p.message.length ≤ 5000) "message" "too_big"

/-- `sendSchema.parse`: returns the payload unchanged, or throws a `ZodError`
carrying the collected per-field issues. -/
def sendSchemaParse (p : Submission) : Except (List FieldIssue) Submission :=
  match sendSchemaIssues p with
  | [] => .ok p
  | issues => .error issues

/-! ### `route.ts` — HTML escaping and body rendering -/

/-- `sanitizeHtml` from `route.ts`: five chained global single-character
`.replace` calls. -/
def replaceAllCh (c : Char) (r : List Char) : List Char → List Char
  | [] => []
  | x :: xs => (if x = c then r else [x]) ++ replaceAllCh c r xs

/-- `sanitizeHtml(text)`: `<` → `&lt;`, then `>` → `&gt;`, then `"` → `&quot;`,
then `'` → `&#x27;`, then `/` → `&#x2F;`. -/
def sanitizeHtml (text : String) : String :=
  ⟨replaceAllCh '/' "&#x2F;".data
    (replaceAllCh (Char.ofNat 39) "&#x27;".data
      (replaceAllCh '"' "&quot;".data
        (replaceAllCh '>' "&gt;".data
          (replaceAllCh '<' "&lt;".data text.data))))⟩

/-- Simultaneous single-pass escaping, as the spec words it: "every occurrence
of `<`, `>`, `"`, `'`, `/` is replaced by its corresponding entity". -/
def escCharSpec (c : Char) : List Char :=
  if c = '<' then "&lt;".data
  else if c = '>' then "&gt;".data
  else if c = '"' then "&quot;".data
  else if c = Char.ofNat 39 then "&#x27;".data
  else if c = '/' then "&#x2F;".data
  else [c]

/-- Spec-side escaping: one simultaneous pass over the string. -/
def escapeSpec (s : String) : String := ⟨s.data.flatMap escCharSpec⟩

/-- JS truthiness of `payload.subject` (`undefined` and `''` are falsy). -/
def optTruthy : Option String → Bool
  | none => false
  | some s => !(s == "")

/-- JS `payload.subject || dflt`. -/
def jsOrStr (o : Option String) (dflt : String) : String :=
  match o with
  | none => dflt
  | some s => if s == "" then dflt else s

/-- The `subject` local of `renderHtml`:
`payload.subject ? sanitizeHtml(payload.subject) : `New message from ${sanitizedName}``. -/
def htmlSubject (p : Submission) : String :=
  match p.subject with
  | some s => if s == "" then "New message from " ++ sanitizeHtml p.name else sanitizeHtml s
  | none => "New message from " ++ sanitizeHtml p.name

/-- `renderHtml` from `route.ts`: the HTML template literal with the escaped
interpolations (transcribed byte-for-byte, including the template's
indentation and trailing-whitespace lines). -/
def renderHtml (p : Submission) : String :=
  let sanitizedName := sanitizeHtml p.name
  let sanitizedMessage := sanitizeHtml p.message
  let subject := htmlSubject p
  "\n    <!DOCTYPE html>\n    <html>\n    <head>\n      <meta charset=\"utf-8\">\n      <title>" ++
  subject ++
  "</title>\n    </head>\n    <body style=\"font-family: Arial, sans-serif; line-height: 1.6; color: #333;\">\n      <div style=\"max-width: 600px; margin: 0 auto; padding: 20px;\">\n        <h2 style=\"color: #2563eb;\">New Contact Form Submission</h2>\n        \n        <div style=\"background: #f8fafc; padding: 20px; border-radius: 8px; margin: 20px 0;\">\n          <p><strong>From:</strong> " ++
  sanitizedName ++
  " (" ++
  p.email ++
  ")</p>\n          " ++
  (if optTruthy p.subject then "<p><strong>Subject:</strong> " ++ subject ++ "</p>" else "") ++
  "\n        </div>\n        \n        <div style=\"background: #ffffff; padding: 20px; border: 1px solid #e2e8f0; border-radius: 8px;\">\n          <h3 style=\"margin-top: 0;\">Message:</h3>\n          <p style=\"white-space: pre-wrap;\">" ++
  sanitizedMessage ++
  "</p>\n        </div>\n        \n        <div style=\"margin-top: 20px; padding: 20px; background: #f1f5f9; border-radius: 8px; font-size: 14px; color: #64748b;\">\n          <p><strong>Note:</strong> You can reply directly to this email to respond to " ++
  sanitizedName ++
  ".</p>\n        </div>\n      </div>\n    </body>\n    </html>\n  "

/-- The text template's subject row:
`${payload.subject ? `Subject: ${payload.subject}` : ''}`. -/
def textSubjectLine : Option String → String
  | some s => if s == "" then "" else "Subject: " ++ s
  | none => ""

/-- `renderText` from `route.ts`.  Note: the source computes
`const subject = payload.subject || ...` but the template interpolates
`payload.subject` directly, so the synthesized subject never reaches the text
body; the dead local is reproduced here. -/
def renderText (p : Submission) : String :=
  let _subject := jsOrStr p.subject ("New message from " ++ p.name)
  jsTrimS
    ("\nNew Contact Form Submission\n\nFrom: " ++
     p.name ++
     " (" ++
     p.email ++
     ")\n" ++
     textSubjectLine p.subject ++
     "\n\nMessage:\n" ++
     p.message ++
     "\n\n---\nNote: You can reply directly to this email to respond to " ++
     p.name ++
     ".\n  ")

/-! ### `route.ts` — the `POST` handler -/

/-- A staff directory entry (`src/data/staff.ts` is generated configuration,
injected here as a lookup function). -/
structure StaffRecord where
  firstName : String
  email : String
deriving DecidableEq, Repr

/-- The argument object of `resend.emails.send`. -/
structure EmailRequest where
  fromAddr : String
  toAddr : String
  replyTo : String
  subject : String
  html : String
  text : String
deriving DecidableEq, Repr

/-- The JSON body + status of a `NextResponse.json` reply. -/
structure ApiResponse where
  ok : Bool
  error : Option String
  status : Nat
deriving DecidableEq, Repr

/-- Outcome of the `resend.emails.send` call (`result.error` set or not). -/
inductive SendOutcome where
  | sent
  | failed
deriving DecidableEq, Repr

/-- The subject line passed to `resend.emails.send`:
`payload.subject || `New message from ${payload.name}``. -/
def postSubject (p : Submission) : String :=
  jsOrStr p.subject ("New message from " ++ p.name)

/-- The `POST` handler of `route.ts`.  `directory` is the generated
`STAFF_BY_ID` map, `envFrom` is `process.env.RESEND_FROM`, and `send` is the
Resend collaborator.  Returns the HTTP response together with the list of
outbound send attempts.  A `ZodError` from `sendSchema.parse` is caught by the
surrounding `try`/`catch` and mapped to a generic 400; the
`if (!resend)` branch of the source is unreachable (`new Resend(...)` is
always truthy) and therefore does not appear. -/
def POST (directory : String → Option StaffRecord) (envFrom : String)
    (send : EmailRequest → SendOutcome) (body : Submission) :
    ApiResponse × List EmailRequest :=
  match sendSchemaParse body with
  | .error _ => (⟨false, some "Invalid request data", 400⟩, [])
  | .ok payload =>
    match directory payload.staffId with
    | none => (⟨false, some "Invalid staff ID", 400⟩, [])
    | some staffMember =>
      let req : EmailRequest :=
        ⟨envFrom, staffMember.email, payload.email, postSubject payload,
         renderHtml payload, renderText payload⟩
      match send req with
      | .failed => (⟨false, some "Failed to send email", 500⟩, [req])
      | .sent => (⟨true, none, 200⟩, [req])

/-! ### Basic string lemmas -/

theorem strEq_of_data {s t : String} (h : s.data = t.data) : s = t := by
  cases s; cases t; simp only at h; rw [h]

theorem data_of_append (s t : String) : (s ++ t).data = s.data ++ t.data :=
  String.data_append s t

/-! ### `sanitizeHtml` agrees with one-pass escaping -/

theorem replaceAllCh_append (c : Char) (r l₁ l₂ : List Char) :
    replaceAllCh c r (l₁ ++ l₂) = replaceAllCh c r l₁ ++ replaceAllCh c r l₂ := by
  induction l₁ with
  | nil => simp [replaceAllCh]
  | cons x xs ih => simp [replaceAllCh, ih]

/-- The five chained replacements, applied to a single character, agree with
the simultaneous escape map. -/
theorem sanitize_single (x : Char) :
    replaceAllCh '/' "&#x2F;".data
      (replaceAllCh (Char.ofNat 39) "&#x27;".data
        (replaceAllCh '"' "&quot;".data
          (replaceAllCh '>' "&gt;".data
            (replaceAllCh '<' "&lt;".data [x])))) = escCharSpec x := by
  by_cases h1 : x = '<'
  · subst h1; decide
  by_cases h2 : x = '>'
  · subst h2; decide
  by_cases h3 : x = '"'
  · subst h3; decide
  by_cases h4 : x = Char.ofNat 39
  · subst h4; decide
  by_cases h5 : x = '/'
  · subst h5; decide
  simp [replaceAllCh, escCharSpec, h1, h2, h3, h4, h5]

theorem sanitize_data (l : List Char) :
    replaceAllCh '/' "&#x2F;".data
      (replaceAllCh (Char.ofNat 39) "&#x27;".data
        (replaceAllCh '"' "&quot;".data
          (replaceAllCh '>' "&gt;".data
            (replaceAllCh '<' "&lt;".data l)))) = l.flatMap escCharSpec := by
  induction l with
  | nil => simp [replaceAllCh]
  | cons x xs ih =>
    have hx := sanitize_single x
    calc replaceAllCh '/' "&#x2F;".data
          (replaceAllCh (Char.ofNat 39) "&#x27;".data
            (replaceAllCh '"' "&quot;".data
              (replaceAllCh '>' "&gt;".data
                (replaceAllCh '<' "&lt;".data ([x] ++ xs)))))
        = replaceAllCh '/' "&#x2F;".data
            (replaceAllCh (Char.ofNat 39) "&#x27;".data
              (replaceAllCh '"' "&quot;".data
                (replaceAllCh '>' "&gt;".data
                  (replaceAllCh '<' "&lt;".data [x])))) ++
          replaceAllCh '/' "&#x2F;".data
            (replaceAllCh (Char.ofNat 39) "&#x27;".data
              (replaceAllCh '"' "&quot;".data
                (replaceAllCh '>' "&gt;".data
                  (replaceAllCh '<' "&lt;".data xs)))) := by
          simp only [replaceAllCh_append]
      _ = escCharSpec x ++ xs.flatMap escCharSpec := by rw [hx, ih]
      _ = (x :: xs).flatMap escCharSpec := by simp

/-! ### The plain-text body in closed form -/

/-- The value of `renderText` with the surrounding `.trim()` already carried
out: the text body embeds `name`, `email`, `subject` and `message` verbatim,
with no escaping. -/
def renderTextNF (p : Submission) : String :=
  "New Contact Form Submission\n\nFrom: " ++
  p.name ++
  " (" ++
  p.email ++
  ")\n" ++
  textSubjectLine p.subject ++
  "\n\nMessage:\n" ++
  p.message ++
  "\n\n---\nNote: You can reply directly to this email to respond to " ++
  p.name ++
  "."

theorem trimL_textHead (X : List Char) :
    trimL (("\nNew Contact Form Submission\n\nFrom: " : String).data ++ X) =
      ("New Contact Form Submission\n\nFrom: " : String).data ++ X := rfl

theorem trimR_textTail (Y : List Char) :
    trimR (Y ++ ['.', '\n', ' ', ' ']) = Y ++ ['.'] := by
  simp only [trimR, List.reverse_append]
  have h1 : List.dropWhile jsWs ([' ', ' ', '\n', '.'] ++ Y.reverse) =
      '.' :: Y.reverse := by
    simp only [List.cons_append, List.nil_append, List.dropWhile_cons,
      show jsWs ' ' = true from rfl, show jsWs '\n' = true from rfl,
      show jsWs '.' = false from rfl]
    simp
  rw [show (['.', '\n', ' ', ' '] : List Char).reverse = [' ', ' ', '\n', '.'] from rfl, h1]
  simp

/-- `renderText` in closed form: trimming only strips the template's leading
newline and trailing `"\n  "`. -/
theorem renderText_eq_nf (p : Submission) : renderText p = renderTextNF p := by
  apply strEq_of_data
  simp only [renderText, jsTrimS, data_of_append, List.append_assoc]
  rw [trimL_textHead]
  simp only [← List.append_assoc]
  rw [trimR_textTail]
  simp only [renderTextNF, data_of_append, List.append_assoc]

/-! ### Infix reasoning for the HTML body -/

theorem not_infix_app {α : Type} [DecidableEq α] {pat A B : List α}
    (hA : ¬ pat <:+: A) (hB : ¬ pat <:+: B)
    (hS : ∀ x y, pat = x ++ y → x ≠ [] → y ≠ [] → ¬ (x <:+ A ∧ y <+: B)) :
    ¬ pat <:+: (A ++ B) := by
  rintro ⟨s, t, h⟩
  rw [List.append_assoc] at h
  rcases List.append_eq_append_iff.mp h.symm with ⟨a2, ha1, ha2⟩ | ⟨c2, hc1, hc2⟩
  · exact hB ⟨a2, t, by rw [ha2, List.append_assoc]⟩
  · rcases List.append_eq_append_iff.mp hc2.symm with ⟨d2, hd1, hd2⟩ | ⟨e2, he1, he2⟩
    · by_cases hx : c2 = []
      · subst hx
        simp only [List.nil_append] at hd1
        exact hB ⟨[], t, by simp [← hd1, hd2]⟩
      by_cases hy : d2 = []
      · subst hy
        simp only [List.append_nil] at hd1
        exact hA ⟨s, [], by simp [hc1, ← hd1]⟩
      exact hS c2 d2 hd1 hx hy ⟨⟨s, hc1.symm⟩, ⟨t, hd2.symm⟩⟩
    · exact hA ⟨s, e2, by rw [hc1, he1, ← List.append_assoc]⟩

theorem splits3 {a b c : Char} {x y : List Char} (h : x ++ y = [a, b, c]) :
    (x = [] ∧ y = [a, b, c]) ∨ (x = [a] ∧ y = [b, c]) ∨
    (x = [a, b] ∧ y = [c]) ∨ (x = [a, b, c] ∧ y = []) := by
  rcases x with _ | ⟨x1, _ | ⟨x2, _ | ⟨x3, xs⟩⟩⟩ <;> simp_all

/-- The literal `<b>` tag. -/
def tagB : List Char := ['<', 'b', '>']

theorem step_lit {L B : List Char} (h1 : ¬ tagB <:+: L) (h2 : ¬ ['<'] <:+ L)
    (h3 : ¬ ['<', 'b'] <:+ L) (hB : ¬ tagB <:+: B) : ¬ tagB <:+: (L ++ B) := by
  refine not_infix_app h1 hB ?_
  intro x y hxy hx hy hand
  rcases splits3 hxy.symm with ⟨hx1, _⟩ | ⟨hx1, _⟩ | ⟨hx1, _⟩ | ⟨_, hy1⟩
  · exact hx hx1
  · exact h2 (hx1 ▸ hand.1)
  · exact h3 (hx1 ▸ hand.1)
  · exact hy hy1

theorem step_noLt {S B : List Char} (hS : '<' ∉ S) (hB : ¬ tagB <:+: B) :
    ¬ tagB <:+: (S ++ B) := by
  refine not_infix_app (fun hinf => hS (hinf.subset (by decide))) hB ?_
  intro x y hxy hx hy hand
  rcases splits3 hxy.symm with ⟨hx1, _⟩ | ⟨hx1, _⟩ | ⟨hx1, _⟩ | ⟨hx1, hy1⟩
  · exact hx hx1
  · exact hS ((hx1 ▸ hand.1).subset (by decide))
  · exact hS ((hx1 ▸ hand.1).subset (by decide))
  · exact hy hy1

theorem infix_app_l {u v : List Char} (w : List Char) (h : u <:+: v) :
    u <:+: w ++ v :=
  h.trans ⟨w, [], by simp⟩

theorem infix_app_r {u v : List Char} (w : List Char) (h : u <:+: v) :
    u <:+: v ++ w :=
  h.trans ⟨[], w, by simp⟩

/-! ### No `<` survives sanitization -/

theorem lt_not_mem_escChar (c : Char) : '<' ∉ escCharSpec c := by
  unfold escCharSpec
  by_cases h1 : c = '<'
  · subst h1; decide
  by_cases h2 : c = '>'
  · subst h2; decide
  by_cases h3 : c = '"'
  · subst h3; decide
  by_cases h4 : c = Char.ofNat 39
  · subst h4; decide
  by_cases h5 : c = '/'
  · subst h5; decide
  simp only [h1, h2, h3, h4, h5, if_false, List.mem_singleton]
  exact fun he => h1 he.symm

/-- `sanitizeHtml` in terms of the one-pass escape map. -/
theorem sanitizeHtml_data (s : String) :
    (sanitizeHtml s).data = s.data.flatMap escCharSpec :=
  sanitize_data s.data

theorem lt_not_mem_sanitize (s : String) : '<' ∉ (sanitizeHtml s).data := by
  rw [sanitizeHtml_data]
  intro hmem
  obtain ⟨c, _, hc⟩ := List.mem_flatMap.mp hmem
  exact lt_not_mem_escChar c hc

theorem lt_not_mem_htmlSubject (p : Submission) : '<' ∉ (htmlSubject p).data := by
  unfold htmlSubject
  have hsyn : '<' ∉ ("New message from " ++ sanitizeHtml p.name).data := by
    rw [data_of_append]
    intro hmem
    rcases List.mem_append.mp hmem with h | h
    · exact absurd h (by decide)
    · exact lt_not_mem_sanitize p.name h
  match p.subject with
  | none => exact hsyn
  | some s =>
    by_cases hs : s == ""
    · simp only [hs, if_true]; exact hsyn
    · simp only [hs, if_false]; exact lt_not_mem_sanitize s

/-- `renderHtml` decomposed into its template segments and interpolations
(left-associated, definitionally). -/
theorem renderHtml_data (p : Submission) :
    (renderHtml p).data =
      ("\n    <!DOCTYPE html>\n    <html>\n    <head>\n      <meta charset=\"utf-8\">\n      <title>" : String).data ++
      (htmlSubject p).data ++
      ("</title>\n    </head>\n    <body style=\"font-family: Arial, sans-serif; line-height: 1.6; color: #333;\">\n      <div style=\"max-width: 600px; margin: 0 auto; padding: 20px;\">\n        <h2 style=\"color: #2563eb;\">New Contact Form Submission</h2>\n        \n        <div style=\"background: #f8fafc; padding: 20px; border-radius: 8px; margin: 20px 0;\">\n          <p><strong>From:</strong> " : String).data ++
      (sanitizeHtml p.name).data ++
      (" (" : String).data ++
      p.email.data ++
      (")</p>\n          " : String).data ++
      (if optTruthy p.subject then
        ("<p><strong>Subject:</strong> " ++ htmlSubject p ++ "</p>" : String) else "").data ++
      ("\n        </div>\n        \n        <div style=\"background: #ffffff; padding: 20px; border: 1px solid #e2e8f0; border-radius: 8px;\">\n          <h3 style=\"margin-top: 0;\">Message:</h3>\n          <p style=\"white-space: pre-wrap;\">" : String).data ++
      (sanitizeHtml p.message).data ++
      ("</p>\n        </div>\n        \n        <div style=\"margin-top: 20px; padding: 20px; background: #f1f5f9; border-radius: 8px; font-size: 14px; color: #64748b;\">\n          <p><strong>Note:</strong> You can reply directly to this email to respond to " : String).data ++
      (sanitizeHtml p.name).data ++
      (".</p>\n        </div>\n      </div>\n    </body>\n    </html>\n  " : String).data := rfl

set_option maxRecDepth 100000 in
/-- The rendered HTML never contains the literal `<b>` tag, provided the
(unescaped) interpolated email address contains no `<`. -/
theorem html_no_tagB (p : Submission) (hE : '<' ∉ p.email.data) :
    ¬ tagB <:+: (renderHtml p).data := by
  rw [renderHtml_data]
  cases hb : optTruthy p.subject
  · simp only [hb, Bool.false_eq_true, if_false,
      show ("" : String).data = [] from rfl, List.append_nil, List.append_assoc]
    apply step_lit (by decide) (by decide) (by decide)
    apply step_noLt (lt_not_mem_htmlSubject p)
    apply step_lit (by decide) (by decide) (by decide)
    apply step_noLt (lt_not_mem_sanitize p.name)
    apply step_lit (by decide) (by decide) (by decide)
    apply step_noLt hE
    apply step_lit (by decide) (by decide) (by decide)
    apply step_lit (by decide) (by decide) (by decide)
    apply step_noLt (lt_not_mem_sanitize p.message)
    apply step_lit (by decide) (by decide) (by decide)
    apply step_noLt (lt_not_mem_sanitize p.name)
    decide
  · simp only [hb, eq_self_iff_true, if_true, data_of_append, List.append_assoc]
    apply step_lit (by decide) (by decide) (by decide)
    apply step_noLt (lt_not_mem_htmlSubject p)
    apply step_lit (by decide) (by decide) (by decide)
    apply step_noLt (lt_not_mem_sanitize p.name)
    apply step_lit (by decide) (by decide) (by decide)
    apply step_noLt hE
    apply step_lit (by decide) (by decide) (by decide)
    apply step_lit (by decide) (by decide) (by decide)
    apply step_noLt (lt_not_mem_htmlSubject p)
    apply step_lit (by decide) (by decide) (by decide)
    apply step_lit (by decide) (by decide) (by decide)
    apply step_noLt (lt_not_mem_sanitize p.message)
    apply step_lit (by decide) (by decide) (by decide)
    apply step_noLt (lt_not_mem_sanitize p.name)
    decide

/-! ### Valid emails contain no `<` -/

theorem splitDots_ne_nil (l : List Char) : splitDots l ≠ [] := by
  cases l with
  | nil => simp [splitDots]
  | cons c rest =>
    simp only [splitDots]
    cases splitDots rest with
    | nil => simp
    | cons h t =>
      by_cases hd : c = '.' <;> simp [hd]

theorem dropLast_app_getLastD {α : Type} (l : List α) (d : α) (h : l ≠ []) :
    l.dropLast ++ [l.getLastD d] = l := by
  induction l generalizing d with
  | nil => exact absurd rfl h
  | cons a rest ih =>
    cases rest with
    | nil => simp [List.getLastD]
    | cons b r =>
      have h1 : (a :: b :: r).getLastD d = (b :: r).getLastD a := rfl
      have h2 : (a :: b :: r).dropLast = a :: (b :: r).dropLast := rfl
      rw [h1, h2, List.cons_append, ih a (by simp)]

theorem mem_splitDots {c : Char} {l : List Char} (hc : c ∈ l) :
    c = '.' ∨ ∃ part ∈ splitDots l, c ∈ part := by
  induction l with
  | nil => cases hc
  | cons d rest ih =>
    rcases List.mem_cons.mp hc with rfl | hc2
    · by_cases hd : c = '.'
      · exact Or.inl hd
      · right
        cases hsp : splitDots rest with
        | nil => exact absurd hsp (splitDots_ne_nil rest)
        | cons h t =>
          refine ⟨c :: h, ?_, by simp⟩
          simp [splitDots, hsp, hd]
    · rcases ih hc2 with hdot | ⟨part, hp, hcp⟩
      · exact Or.inl hdot
      · right
        cases hsp : splitDots rest with
        | nil => exact absurd hsp (splitDots_ne_nil rest)
        | cons h t =>
          rw [hsp] at hp
          by_cases hd : d = '.'
          · refine ⟨part, ?_, hcp⟩
            simp only [splitDots, hsp, hd, if_true, eq_self_iff_true]
            exact List.mem_cons_of_mem _ hp
          · rcases List.mem_cons.mp hp with rfl | hpt
            · refine ⟨d :: part, ?_, List.mem_cons_of_mem _ hcp⟩
              simp [splitDots, hsp, hd]
            · refine ⟨part, ?_, hcp⟩
              simp only [splitDots, hsp, hd, if_false]
              exact List.mem_cons_of_mem _ hpt

theorem domainOk_chars {l : List Char} (h : domainOk l = true) :
    ∀ c ∈ l, (isAlnumCh c || c = '-' || c = '.') = true := by
  intro c hc
  unfold domainOk at h
  simp only [Bool.and_eq_true] at h
  obtain ⟨⟨_, hlabels⟩, htld⟩ := h
  rcases mem_splitDots hc with rfl | ⟨part, hp, hcp⟩
  · simp
  · have hsplit := dropLast_app_getLastD (splitDots l) [] (splitDots_ne_nil l)
    rw [← hsplit] at hp
    rcases List.mem_append.mp hp with hdl | hlast
    · have hlab := List.all_eq_true.mp hlabels part hdl
      cases part with
      | nil => simp [labelOk] at hlab
      | cons p0 prest =>
        simp only [labelOk, Bool.and_eq_true] at hlab
        rcases List.mem_cons.mp hcp with rfl | hcr
        · simp [hlab.1]
        · have := List.all_eq_true.mp hlab.2 c hcr
          simp only [Bool.or_eq_true] at this ⊢
          rcases this with h1 | h2
          · exact Or.inl (Or.inl h1)
          · exact Or.inl (Or.inr h2)
    · have hpart : part = (splitDots l).getLastD [] := by
        simpa using hlast
      rw [hpart] at hcp
      simp only [tldOk, Bool.and_eq_true] at htld
      have := List.all_eq_true.mp htld.2 c hcp
      simp only [Bool.or_eq_true, isAlnumCh]
      exact Or.inl (Or.inl (Or.inl this))

theorem dropWhile_head_false {α : Type} {p : α → Bool} {l : List α} {a : α}
    {rest : List α} (h : l.dropWhile p = a :: rest) : p a = false := by
  induction l with
  | nil => simp [List.dropWhile] at h
  | cons x xs ih =>
    rw [List.dropWhile_cons] at h
    by_cases hx : p x = true
    · rw [if_pos hx] at h
      exact ih h
    · rw [if_neg hx] at h
      cases h
      exact Bool.not_eq_true _ ▸ Bool.of_not_eq_true hx

theorem zodEmail_no_lt {s : String} (h : zodEmailValid s = true) : '<' ∉ s.data := by
  intro hmem
  simp only [zodEmailValid] at h
  rcases hdw : List.dropWhile (fun c => decide (c ≠ '@')) s.data with _ | ⟨a, domain⟩
  · rw [hdw] at h; simp at h
  · rw [hdw] at h
    simp only [Bool.and_eq_true] at h
    obtain ⟨⟨⟨⟨⟨_, _⟩, _⟩, _⟩, hlocal⟩, _⟩ := h.1
    have hdom := h.2
    have hsplit := List.takeWhile_append_dropWhile (fun c => decide (c ≠ '@')) s.data
    rw [hdw] at hsplit
    rw [← hsplit] at hmem
    rcases List.mem_append.mp hmem with hloc | hrest
    · have := List.all_eq_true.mp hlocal '<' hloc
      simp [localChar, isAlnumCh, isAlphaCh, isLowerAlpha, isUpperAlphaCh, isDigitCh] at this
    · have ha : a = '@' := by
        have hf := dropWhile_head_false hdw
        simpa using hf
      rcases List.mem_cons.mp hrest with rfl | hd
      · simp at ha
      · have := domainOk_chars hdom '<' hd
        simp [isAlnumCh, isAlphaCh, isLowerAlpha, isUpperAlphaCh, isDigitCh] at this

/-! ### Validation characterization -/

theorem zCheck_eq_nil {b : Bool} {f m : String} : zCheck b f m = [] ↔ b = true := by
  cases b <;> simp [zCheck]

/-- `sendSchema.parse` succeeds exactly when every bound holds, all upper
bounds inclusive. -/
theorem sendSchemaIssues_eq_nil_iff (p : Submission) :
    sendSchemaIssues p = [] ↔
      (8 ≤ p.staffId.length ∧ p.staffId.length ≤ 128 ∧
       1 ≤ p.name.length ∧ p.name.length ≤ 120 ∧
       zodEmailValid p.email = true ∧ p.email.length ≤ 254 ∧
       (∀ s, p.subject = some s → s.length ≤ 200) ∧
       1 ≤ p.message.length ∧ p.message.length ≤ 5000) := by
  cases hs : p.subject with
  | none =>
    simp [sendSchemaIssues, hs, List.append_eq_nil, zCheck_eq_nil, and_assoc]
  | some s =>
    simp [sendSchemaIssues, hs, List.append_eq_nil, zCheck_eq_nil, and_assoc]

/-! ### Identifier derivation lemmas -/

theorem makeHashedId_congr (env : Option String) {a b : String}
    (h : normalizeName a = normalizeName b) :
    makeHashedId env a = makeHashedId env b := by
  unfold makeHashedId
  rw [h]

theorem digestBytes_length (st : Hash8) : (digestBytes st).length = 32 := by
  simp [digestBytes, wordBytes]

theorem sha256_length (ms : List Nat) : (sha256 ms).length = 32 :=
  digestBytes_length _

theorem hmacSha256_length (key msg : List Nat) :
    (hmacSha256 key msg).length = 32 :=
  sha256_length _

theorem bytesToHex_length (l : List Nat) :
    (bytesToHex l).length = 2 * l.length := by
  induction l with
  | nil => simp [bytesToHex]
  | cons b bs ih =>
    simp only [bytesToHex, List.flatMap_cons] at ih ⊢
    simp [ih]
    omega

theorem makeHashedId_length (env : Option String) (n : String) :
    (makeHashedId env n).length = 16 := by
  show (List.take 16 _).length = 16
  rw [List.length_take, bytesToHex_length, hmacSha256_length]
  decide

theorem hexDigit_mem_alphabet {k : Nat} (hk : k < 16) :
    hexDigit k ∈ ("0123456789abcdef" : String).data := by
  interval_cases k <;> decide

theorem makeHashedId_chars (env : Option String) (n : String) :
    ∀ c ∈ (makeHashedId env n).data, c ∈ ("0123456789abcdef" : String).data := by
  intro c hc
  have hc2 : c ∈ bytesToHex (hmacSha256 (strBytes (secretOf env))
      (strBytes (normalizeName n))) := List.mem_of_mem_take hc
  obtain ⟨b, _, hb⟩ := List.mem_flatMap.mp hc2
  rcases List.mem_cons.mp hb with rfl | hb2
  · exact hexDigit_mem_alphabet (Nat.mod_lt _ (by norm_num))
  · rcases List.mem_cons.mp hb2 with rfl | hb3
    · exact hexDigit_mem_alphabet (Nat.mod_lt _ (by norm_num))
    · cases hb3

/-! ### `POST` control-flow lemmas -/

theorem POST_invalid (d : String → Option StaffRecord) (envFrom : String)
    (send : EmailRequest → SendOutcome) (body : Submission)
    (h : sendSchemaIssues body ≠ []) :
    POST d envFrom send body = (⟨false, some "Invalid request data", 400⟩, []) := by
  unfold POST sendSchemaParse
  cases hi : sendSchemaIssues body with
  | nil => exact absurd hi h
  | cons i is => rfl

theorem POST_unknownStaff (d : String → Option StaffRecord) (envFrom : String)
    (send : EmailRequest → SendOutcome) (body : Submission)
    (h1 : sendSchemaIssues body = []) (h2 : d body.staffId = none) :
    POST d envFrom send body = (⟨false, some "Invalid staff ID", 400⟩, []) := by
  unfold POST sendSchemaParse
  rw [h1]
  show (match d body.staffId with | none => _ | some staffMember => _) = _
  rw [h2]

/-! ### An empty-string subject behaves like an absent subject -/

theorem renderHtml_congr {p q : Submission} (hn : p.name = q.name)
    (he : p.email = q.email) (hm : p.message = q.message)
    (hsub : htmlSubject p = htmlSubject q)
    (ht : optTruthy p.subject = optTruthy q.subject) :
    renderHtml p = renderHtml q := by
  unfold renderHtml
  rw [hn, he, hm, hsub, ht]

theorem renderText_congr {p q : Submission} (hn : p.name = q.name)
    (he : p.email = q.email) (hm : p.message = q.message)
    (hline : textSubjectLine p.subject = textSubjectLine q.subject) :
    renderText p = renderText q := by
  unfold renderText
  rw [hn, he, hm, hline]

theorem htmlSubject_subject_empty (p : Submission) (h : p.subject = some "") :
    htmlSubject p = htmlSubject {p with subject := none} := by
  unfold htmlSubject
  rw [h]
  rfl

theorem issues_subject_empty (p : Submission) (h : p.subject = some "") :
    sendSchemaIssues p = sendSchemaIssues {p with subject := none} := by
  unfold sendSchemaIssues
  rw [h]
  rfl

theorem postSubject_subject_empty (p : Submission) (h : p.subject = some "") :
    postSubject p = postSubject {p with subject := none} := by
  unfold postSubject jsOrStr
  rw [h]
  rfl

theorem renderHtml_subject_empty (p : Submission) (h : p.subject = some "") :
    renderHtml p = renderHtml {p with subject := none} :=
  renderHtml_congr rfl rfl rfl (htmlSubject_subject_empty p h) (by rw [h]; rfl)

theorem renderText_subject_empty (p : Submission) (h : p.subject = some "") :
    renderText p = renderText {p with subject := none} :=
  renderText_congr rfl rfl rfl (by rw [h]; rfl)

theorem POST_subject_empty (d : String → Option StaffRecord) (envFrom : String)
    (send : EmailRequest → SendOutcome) (p : Submission) (h : p.subject = some "") :
    POST d envFrom send p = POST d envFrom send {p with subject := none} := by
  unfold POST sendSchemaParse
  rw [← issues_subject_empty p h]
  cases hi : sendSchemaIssues p with
  | cons i is => rfl
  | nil =>
    show (match d p.staffId with | none => _ | some staffMember => _) =
      (match d p.staffId with | none => _ | some staffMember => _)
    cases hd : d p.staffId with
    | none => rfl
    | some staff =>
      rw [renderHtml_subject_empty p h, renderText_subject_empty p h,
        postSubject_subject_empty p h]

/-! ### Claim C1 -/

/-- `renderTextNF` decomposed into segments (definitionally). -/
theorem renderTextNF_data (p : Submission) :
    (renderTextNF p).data =
      ("New Contact Form Submission\n\nFrom: " : String).data ++
      p.name.data ++ (" (" : String).data ++ p.email.data ++ (")\n" : String).data ++
      (textSubjectLine p.subject).data ++ ("\n\nMessage:\n" : String).data ++
      p.message.data ++
      ("\n\n---\nNote: You can reply directly to this email to respond to " : String).data ++
      p.name.data ++ ("." : String).data := rfl

theorem splits2 {a b : Char} {x y : List Char} (h : x ++ y = [a, b]) :
    (x = [] ∧ y = [a, b]) ∨ (x = [a] ∧ y = [b]) ∨ (x = [a, b] ∧ y = []) := by
  rcases x with _ | ⟨x1, _ | ⟨x2, xs⟩⟩ <;> simp_all

theorem step2 {A B : List Char} (h1 : ¬ [';', '/'] <:+: A)
    (hc : ¬ ([';'] <:+ A) ∨ ¬ (['/'] <+: B)) (hB : ¬ [';', '/'] <:+: B) :
    ¬ [';', '/'] <:+: (A ++ B) := by
  refine not_infix_app h1 hB ?_
  intro x y hxy hx hy hand
  rcases splits2 hxy.symm with ⟨hx1, _⟩ | ⟨hx1, hy1⟩ | ⟨_, hy1⟩
  · exact hx hx1
  · rcases hc with hA | hBp
    · exact hA (hx1 ▸ hand.1)
    · exact hBp (hy1 ▸ hand.2)
  · exact hy hy1

set_option maxRecDepth 100000 in
/-- C1, counterexample to the claim as stated: for the submission with
`name = "<b>Bob</b>"`, the rendered HTML does NOT contain the substring
`&lt;b&gt;Bob&lt;/b&gt;` — `sanitizeHtml` also escapes `/`, so the closing
tag renders as `&lt;&#x2F;b&gt;`.  (The claimed substring contains the
two-character run `;/`, which never occurs in the rendered HTML.) -/
theorem c1_counterexample :
    ¬ (("&lt;b&gt;Bob&lt;/b&gt;" : String).data <:+:
        (renderHtml ⟨"aaaabbbbccccdddd", "<b>Bob</b>", "ann@example.com",
          none, "Hi"⟩).data) := by
  have h2 : ¬ ([';', '/'] : List Char) <:+:
      (renderHtml ⟨"aaaabbbbccccdddd", "<b>Bob</b>", "ann@example.com",
        none, "Hi"⟩).data := by
    rw [renderHtml_data]
    simp only [List.append_assoc]
    apply step2 (by decide) (Or.inl (by decide))
    apply step2 (by decide) (Or.inr (by decide))
    apply step2 (by decide) (Or.inl (by decide))
    apply step2 (by decide) (Or.inr (by decide))
    apply step2 (by decide) (Or.inl (by decide))
    apply step2 (by decide) (Or.inl (by decide))
    apply step2 (by decide) (Or.inl (by decide))
    apply step2 (by decide) (Or.inl (by decide))
    apply step2 (by decide) (Or.inl (by decide))
    apply step2 (by decide) (Or.inl (by decide))
    apply step2 (by decide) (Or.inl (by decide))
    apply step2 (by decide) (Or.inr (by decide))
    decide
  intro h
  exact h2 ((show ([';', '/'] : List Char) <:+:
    ("&lt;b&gt;Bob&lt;/b&gt;" : String).data by decide).trans h)

set_option maxRecDepth 100000 in
/-- C1 (amended): for a schema-valid submission whose name is `"<b>Bob</b>"`,
the HTML body contains `&lt;b&gt;Bob&lt;&#x2F;b&gt;` (the `/` is escaped
too), never contains the literal `<b>` tag, and the plain-text body contains
the literal unescaped `<b>Bob</b>`. -/
theorem c1_escaping (p : Submission) (hv : sendSchemaIssues p = [])
    (hn : p.name = "<b>Bob</b>") :
    (("&lt;b&gt;Bob&lt;&#x2F;b&gt;" : String).data <:+: (renderHtml p).data) ∧
    ¬ (("<b>" : String).data <:+: (renderHtml p).data) ∧
    (("<b>Bob</b>" : String).data <:+: (renderText p).data) := by
  have hemail : zodEmailValid p.email = true :=
    ((sendSchemaIssues_eq_nil_iff p).mp hv).2.2.2.2.1
  have hsan : (sanitizeHtml p.name).data =
      ("&lt;b&gt;Bob&lt;&#x2F;b&gt;" : String).data := by
    rw [hn]; decide
  refine ⟨?_, ?_, ?_⟩
  · rw [renderHtml_data]
    apply infix_app_r
    apply infix_app_l
    rw [hsan]
  · show ¬ tagB <:+: (renderHtml p).data
    exact html_no_tagB p (zodEmail_no_lt hemail)
  · rw [renderText_eq_nf, renderTextNF_data]
    apply infix_app_r
    apply infix_app_l
    rw [hn]

set_option maxRecDepth 100000 in
/-- Witness for C1 at a concrete schema-valid submission. -/
theorem c1_witness :
    sendSchemaIssues ⟨"aaaabbbbccccdddd", "<b>Bob</b>", "ann@example.com",
        none, "Hi"⟩ = [] ∧
    ((("&lt;b&gt;Bob&lt;&#x2F;b&gt;" : String).data <:+:
        (renderHtml ⟨"aaaabbbbccccdddd", "<b>Bob</b>", "ann@example.com",
          none, "Hi"⟩).data) ∧
     ¬ (("<b>" : String).data <:+:
        (renderHtml ⟨"aaaabbbbccccdddd", "<b>Bob</b>", "ann@example.com",
          none, "Hi"⟩).data) ∧
     (("<b>Bob</b>" : String).data <:+:
        (renderText ⟨"aaaabbbbccccdddd", "<b>Bob</b>", "ann@example.com",
          none, "Hi"⟩).data)) :=
  ⟨by decide, c1_escaping _ (by decide) rfl⟩

/-! ### Claim C2 -/

/-- C2, counterexample to the claim as stated: a malformed staffId that
violates the schema's length bounds (`"ab"`) yields the response
`{ok:false, error:'Invalid request data'}`, while a syntactically valid but
absent staffId yields `{ok:false, error:'Invalid staff ID'}` — the two
responses differ, so the endpoint does reveal whether the ID was malformed
(by length) or simply absent. -/
theorem c2_counterexample :
    (POST (fun _ => none) "noreply@example.org" (fun _ => .sent)
        ⟨"ab", "Ann", "ann@example.com", none, "Hi"⟩).1 ≠
    (POST (fun _ => none) "noreply@example.org" (fun _ => .sent)
        ⟨"aaaabbbbccccdddd", "Ann", "ann@example.com", none, "Hi"⟩).1 := by
  decide

/-- C2 (amended): every schema-valid payload whose staffId is absent from the
directory — including malformed IDs whose length still lies in `[8,128]` —
gets the identical `{ok:false, error:'Invalid staff ID', 400}` response, so
those cases are indistinguishable; but a payload rejected by the schema
(e.g. a staffId shorter than 8) gets the distinct error string
`'Invalid request data'` (same `{ok,error}` shape, same 400 status). -/
theorem c2_opacity (d : String → Option StaffRecord) (envFrom : String)
    (send : EmailRequest → SendOutcome) (b1 b2 : Submission)
    (hv1 : sendSchemaIssues b1 = []) (hm1 : d b1.staffId = none)
    (hv2 : sendSchemaIssues b2 = []) (hm2 : d b2.staffId = none) :
    (POST d envFrom send b1).1 = (POST d envFrom send b2).1 ∧
    (POST d envFrom send b1).1 = ⟨false, some "Invalid staff ID", 400⟩ ∧
    ∀ b3 : Submission, sendSchemaIssues b3 ≠ [] →
      (POST d envFrom send b3).1 = ⟨false, some "Invalid request data", 400⟩ := by
  refine ⟨?_, ?_, ?_⟩
  · rw [POST_unknownStaff d envFrom send b1 hv1 hm1,
      POST_unknownStaff d envFrom send b2 hv2 hm2]
  · rw [POST_unknownStaff d envFrom send b1 hv1 hm1]
  · intro b3 h3
    rw [POST_invalid d envFrom send b3 h3]

/-- Witness for C2: an absent well-formed ID and an absent malformed-but-
length-valid ID are indistinguishable; a length-invalid ID is not. -/
theorem c2_witness :
    ((POST (fun _ => none) "noreply@example.org" (fun _ => .sent)
        ⟨"aaaabbbbccccdddd", "Ann", "ann@example.com", none, "Hi"⟩).1 =
      (POST (fun _ => none) "noreply@example.org" (fun _ => .sent)
        ⟨"NOT-A-HEX-ID!!", "Ann", "ann@example.com", none, "Hi"⟩).1) ∧
    ((POST (fun _ => none) "noreply@example.org" (fun _ => .sent)
        ⟨"aaaabbbbccccdddd", "Ann", "ann@example.com", none, "Hi"⟩).1 =
      ⟨false, some "Invalid staff ID", 400⟩) ∧
    ((POST (fun _ => none) "noreply@example.org" (fun _ => .sent)
        ⟨"ab", "Ann", "ann@example.com", none, "Hi"⟩).1 =
      ⟨false, some "Invalid request data", 400⟩) := by
  obtain ⟨h1, h2, h3⟩ := c2_opacity (fun _ => none) "noreply@example.org"
    (fun _ => .sent)
    ⟨"aaaabbbbccccdddd", "Ann", "ann@example.com", none, "Hi"⟩
    ⟨"NOT-A-HEX-ID!!", "Ann", "ann@example.com", none, "Hi"⟩
    (by decide) rfl (by decide) rfl
  exact ⟨h1, h2, h3 _ (by decide)⟩

/-! ### Claim C3 -/

/-- C3: the validator accepts a 5000-character message and rejects a
5001-character message, rejects an empty name and the email
`"not-an-email"`; in general, a payload is accepted exactly when every
bound holds, with all upper bounds inclusive. -/
theorem c3_validator_bounds :
    sendSchemaIssues ⟨"aaaabbbbccccdddd", "Ann", "ann@example.com", none,
        ⟨List.replicate 5000 'a'⟩⟩ = [] ∧
    sendSchemaIssues ⟨"aaaabbbbccccdddd", "Ann", "ann@example.com", none,
        ⟨List.replicate 5001 'a'⟩⟩ ≠ [] ∧
    sendSchemaIssues ⟨"aaaabbbbccccdddd", "", "ann@example.com", none,
        "Hi"⟩ ≠ [] ∧
    sendSchemaIssues ⟨"aaaabbbbccccdddd", "Ann", "not-an-email", none,
        "Hi"⟩ ≠ [] ∧
    ∀ p : Submission, sendSchemaIssues p = [] ↔
      (8 ≤ p.staffId.length ∧ p.staffId.length ≤ 128 ∧
       1 ≤ p.name.length ∧ p.name.length ≤ 120 ∧
       zodEmailValid p.email = true ∧ p.email.length ≤ 254 ∧
       (∀ s, p.subject = some s → s.length ≤ 200) ∧
       1 ≤ p.message.length ∧ p.message.length ≤ 5000) := by
  have hlen : ∀ (n : Nat), (String.mk (List.replicate n 'a')).length = n := by
    intro n
    show (List.replicate n 'a').length = n
    exact List.length_replicate n 'a'
  refine ⟨?_, ?_, ?_, ?_, sendSchemaIssues_eq_nil_iff⟩
  · refine (sendSchemaIssues_eq_nil_iff _).mpr ?_
    refine ⟨by decide, by decide, by decide, by decide, by decide, by decide,
      ?_, ?_, ?_⟩
    · intro s hs; cases hs
    · rw [hlen]; decide
    · rw [hlen]
  · intro h
    have := ((sendSchemaIssues_eq_nil_iff _).mp h).2.2.2.2.2.2.2.2
    rw [hlen] at this
    omega
  · intro h
    have := ((sendSchemaIssues_eq_nil_iff _).mp h).2.2.1
    simp at this
  · intro h
    have := ((sendSchemaIssues_eq_nil_iff _).mp h).2.2.2.2.1
    have hne : zodEmailValid "not-an-email" = false := by decide
    rw [hne] at this
    cases this

/-! ### Claim C4 -/

/-- `sanitizeHtml` equals the spec's simultaneous one-pass escaping. -/
theorem sanitizeHtml_eq_escapeSpec (s : String) : sanitizeHtml s = escapeSpec s :=
  strEq_of_data (sanitize_data s.data)

/-- The `subject` local of `renderHtml`, phrased with the spec-side escape. -/
def htmlSubjectSpec (p : Submission) : String :=
  match p.subject with
  | some s => if s == "" then "New message from " ++ escapeSpec p.name else escapeSpec s
  | none => "New message from " ++ escapeSpec p.name

theorem htmlSubject_eq_spec (p : Submission) : htmlSubject p = htmlSubjectSpec p := by
  unfold htmlSubject htmlSubjectSpec
  cases p.subject with
  | none => rw [sanitizeHtml_eq_escapeSpec]
  | some s =>
    show (if (s == "") = true then "New message from " ++ sanitizeHtml p.name
        else sanitizeHtml s) =
      (if (s == "") = true then "New message from " ++ escapeSpec p.name
        else escapeSpec s)
    rw [sanitizeHtml_eq_escapeSpec, sanitizeHtml_eq_escapeSpec]

/-- C4: every occurrence of `<`, `>`, `"`, `'`, `/` in the user-supplied
name, subject and message is replaced (in one simultaneous pass, as
`escapeSpec`) before embedding in the HTML body, and the plain-text body
embeds the raw strings with no escaping at all. -/
theorem c4_escaping_spec :
    (∀ s : String, sanitizeHtml s = escapeSpec s) ∧
    (∀ p : Submission, (renderHtml p).data =
      ("\n    <!DOCTYPE html>\n    <html>\n    <head>\n      <meta charset=\"utf-8\">\n      <title>" : String).data ++
      (htmlSubjectSpec p).data ++
      ("</title>\n    </head>\n    <body style=\"font-family: Arial, sans-serif; line-height: 1.6; color: #333;\">\n      <div style=\"max-width: 600px; margin: 0 auto; padding: 20px;\">\n        <h2 style=\"color: #2563eb;\">New Contact Form Submission</h2>\n        \n        <div style=\"background: #f8fafc; padding: 20px; border-radius: 8px; margin: 20px 0;\">\n          <p><strong>From:</strong> " : String).data ++
      (escapeSpec p.name).data ++
      (" (" : String).data ++
      p.email.data ++
      (")</p>\n          " : String).data ++
      (if optTruthy p.subject then
        ("<p><strong>Subject:</strong> " ++ htmlSubjectSpec p ++ "</p>" : String) else "").data ++
      ("\n        </div>\n        \n        <div style=\"background: #ffffff; padding: 20px; border: 1px solid #e2e8f0; border-radius: 8px;\">\n          <h3 style=\"margin-top: 0;\">Message:</h3>\n          <p style=\"white-space: pre-wrap;\">" : String).data ++
      (escapeSpec p.message).data ++
      ("</p>\n        </div>\n        \n        <div style=\"margin-top: 20px; padding: 20px; background: #f1f5f9; border-radius: 8px; font-size: 14px; color: #64748b;\">\n          <p><strong>Note:</strong> You can reply directly to this email to respond to " : String).data ++
      (escapeSpec p.name).data ++
      (".</p>\n        </div>\n      </div>\n    </body>\n    </html>\n  " : String).data) ∧
    (∀ p : Submission, renderText p = renderTextNF p) :=
  ⟨sanitizeHtml_eq_escapeSpec,
   fun p => by
    rw [renderHtml_data, sanitizeHtml_eq_escapeSpec p.name,
      sanitizeHtml_eq_escapeSpec p.message, htmlSubject_eq_spec],
   renderText_eq_nf⟩

/-! ### Claim C5 -/

set_option maxRecDepth 100000 in
/-- C5, counterexample to the claim as stated: with no subject supplied, the
synthesized subject `"New message from Ann"` does NOT appear in the text
body — `renderText` computes `const subject = payload.subject || ...` but
never interpolates it (the template tests `payload.subject` directly), so
the text body simply has no subject line. -/
theorem c5_counterexample :
    ¬ (("New message from Ann" : String).data <:+:
        (renderText ⟨"aaaabbbbccccdddd", "Ann", "ann@example.com",
          none, "Hi"⟩).data) := by
  decide

/-- C5 (amended): a truthy provided subject is used verbatim as the email
subject header (and, escaped, in the HTML); when the subject is absent (or
empty), the synthesized `"New message from {name}"` is used with the
unescaped name in the subject header, and with the escaped name in the HTML
body — but the text body receives no subject line at all (the synthesized
subject is computed and discarded by `renderText`). -/
theorem c5_subject_synthesis (p : Submission) :
    (∀ s, p.subject = some s → s ≠ "" →
      postSubject p = s ∧ htmlSubject p = sanitizeHtml s) ∧
    (optTruthy p.subject = false →
      postSubject p = "New message from " ++ p.name ∧
      htmlSubject p = "New message from " ++ sanitizeHtml p.name ∧
      textSubjectLine p.subject = "") := by
  constructor
  · intro s hs hne
    have hb : (s == "") = false := by
      simp [hne]
    constructor
    · show jsOrStr p.subject ("New message from " ++ p.name) = s
      rw [hs]
      show (if (s == "") = true then "New message from " ++ p.name else s) = s
      rw [hb]
      rfl
    · show htmlSubject p = sanitizeHtml s
      unfold htmlSubject
      rw [hs]
      show (if (s == "") = true then "New message from " ++ sanitizeHtml p.name
          else sanitizeHtml s) = sanitizeHtml s
      rw [hb]
      rfl
  · intro ht
    cases hs : p.subject with
    | none =>
      refine ⟨?_, ?_, rfl⟩
      · show jsOrStr p.subject ("New message from " ++ p.name) = _
        rw [hs]
        rfl
      · unfold htmlSubject
        rw [hs]
    | some s =>
      have hb : (s == "") = true := by
        rw [hs] at ht
        simpa [optTruthy] using ht
      refine ⟨?_, ?_, ?_⟩
      · show jsOrStr p.subject ("New message from " ++ p.name) = _
        rw [hs]
        show (if (s == "") = true then "New message from " ++ p.name else s) = _
        rw [hb]
        rfl
      · unfold htmlSubject
        rw [hs]
        show (if (s == "") = true then "New message from " ++ sanitizeHtml p.name
            else sanitizeHtml s) = _
        rw [hb]
        rfl
      · show (if (s == "") = true then "" else "Subject: " ++ s) = ""
        rw [hb]
        rfl

/-- Witness for C5 at concrete submissions with and without a subject. -/
theorem c5_witness :
    (postSubject ⟨"aaaabbbbccccdddd", "Ann", "ann@example.com",
        some "Hello", "Hi"⟩ = "Hello" ∧
     htmlSubject ⟨"aaaabbbbccccdddd", "Ann", "ann@example.com",
        some "Hello", "Hi"⟩ = sanitizeHtml "Hello") ∧
    (postSubject ⟨"aaaabbbbccccdddd", "Ann", "ann@example.com",
        none, "Hi"⟩ = "New message from " ++ "Ann" ∧
     htmlSubject ⟨"aaaabbbbccccdddd", "Ann", "ann@example.com",
        none, "Hi"⟩ = "New message from " ++ sanitizeHtml "Ann" ∧
     textSubjectLine (⟨"aaaabbbbccccdddd", "Ann", "ann@example.com",
        none, "Hi"⟩ : Submission).subject = "") :=
  ⟨(c5_subject_synthesis _).1 "Hello" rfl (by decide),
   (c5_subject_synthesis _).2 (by decide)⟩

/-! ### Claim C6 -/

/-- C6: identifier derivation is total; it is exactly "first 16 characters of
the lowercase-hex HMAC-SHA256 digest of the normalized name under the
secret"; the result always has length 16 and consists of lowercase hex
digits; an empty normalized name is hashed as the empty byte string and
still yields a well-formed identifier. -/
theorem c6_id_derivation (env : Option String) (n : String) :
    (makeHashedId env n).data =
      (bytesToHex (hmacSha256 (strBytes (secretOf env))
        (strBytes (normalizeName n)))).take 16 ∧
    (makeHashedId env n).length = 16 ∧
    (∀ c ∈ (makeHashedId env n).data, c ∈ ("0123456789abcdef" : String).data) ∧
    (normalizeName n = "" → (makeHashedId env n).data =
      (bytesToHex (hmacSha256 (strBytes (secretOf env)) [])).take 16) := by
  refine ⟨rfl, makeHashedId_length env n, makeHashedId_chars env n, ?_⟩
  intro h
  show (bytesToHex (hmacSha256 (strBytes (secretOf env))
      (strBytes (normalizeName n)))).take 16 = _
  rw [h]
  rfl

/-- Witness for C6: `"123"` normalizes to the empty string and still gets a
well-formed identifier. -/
theorem c6_witness :
    normalizeName "123" = "" ∧
    (makeHashedId none "123").data =
      (bytesToHex (hmacSha256 (strBytes (secretOf none)) [])).take 16 ∧
    (makeHashedId none "123").length = 16 :=
  ⟨by decide, (c6_id_derivation none "123").2.2.2 (by decide),
   (c6_id_derivation none "123").2.1⟩

/-! ### Claim C7 -/

/-- C7: under any fixed secret environment, `"Jo Doe"`, `"jo doe"` and
`" JO   DOE "` derive the same identifier, and `"Jo1 Doe!"` derives the
same identifier as `"Jo Doe"` (non-letters are stripped, not rejected). -/
theorem c7_normalization_collapse (env : Option String) :
    makeHashedId env "Jo Doe" = makeHashedId env "jo doe" ∧
    makeHashedId env "Jo Doe" = makeHashedId env " JO   DOE " ∧
    makeHashedId env "Jo1 Doe!" = makeHashedId env "Jo Doe" :=
  ⟨makeHashedId_congr env (by decide), makeHashedId_congr env (by decide),
   makeHashedId_congr env (by decide)⟩

/-! ### Claim C8 -/

/-- C8, counterexample to the claim as stated: payloads failing validation on
different fields (empty name vs. bad email) produce different validator
issue lists but the very same fixed response
`{ok:false, error:'Invalid request data'}` — the response carries no
per-field validation detail. -/
theorem c8_counterexample :
    sendSchemaIssues ⟨"aaaabbbbccccdddd", "", "ann@example.com", none, "Hi"⟩ ≠
      sendSchemaIssues ⟨"aaaabbbbccccdddd", "Ann", "not-an-email", none, "Hi"⟩ ∧
    POST (fun _ => none) "noreply@example.org" (fun _ => .sent)
        ⟨"aaaabbbbccccdddd", "", "ann@example.com", none, "Hi"⟩ =
      (⟨false, some "Invalid request data", 400⟩, []) ∧
    POST (fun _ => none) "noreply@example.org" (fun _ => .sent)
        ⟨"aaaabbbbccccdddd", "Ann", "not-an-email", none, "Hi"⟩ =
      (⟨false, some "Invalid request data", 400⟩, []) := by
  refine ⟨by decide, by decide, by decide⟩

/-- C8 (amended): for every payload that fails validation, the endpoint
returns the fixed generic 400 response `{ok:false, error:'Invalid request
data'}` — without the per-field detail the validator computed — and no
email send is attempted. -/
theorem c8_invalid_input (d : String → Option StaffRecord) (envFrom : String)
    (send : EmailRequest → SendOutcome) (body : Submission)
    (h : sendSchemaIssues body ≠ []) :
    POST d envFrom send body = (⟨false, some "Invalid request data", 400⟩, []) :=
  POST_invalid d envFrom send body h

/-- Witness for C8 at a concrete invalid payload. -/
theorem c8_witness :
    POST (fun _ => none) "noreply@example.org" (fun _ => .sent)
        ⟨"aaaabbbbccccdddd", "", "ann@example.com", none, "Hi"⟩ =
      (⟨false, some "Invalid request data", 400⟩, []) :=
  c8_invalid_input (fun _ => none) "noreply@example.org" (fun _ => .sent)
    ⟨"aaaabbbbccccdddd", "", "ann@example.com", none, "Hi"⟩ (by decide)

/-! ### Claim C9 -/

/-- C9: with `HASH_SECRET` unset or empty, identifier derivation silently
falls back to the fixed key `"default-secret"`; it never fails, and the
identifier is then a deterministic function of the normalized name alone. -/
theorem c9_default_secret (n : String) :
    makeHashedId none n = makeHashedId (some "") n ∧
    (makeHashedId none n).data =
      (bytesToHex (hmacSha256 (strBytes "default-secret")
        (strBytes (normalizeName n)))).take 16 ∧
    ∀ m : String, normalizeName n = normalizeName m →
      makeHashedId none n = makeHashedId none m :=
  ⟨rfl, rfl, fun _ h => makeHashedId_congr none h⟩

/-- Witness for C9: two spellings with the same normalization collide under
the fallback key. -/
theorem c9_witness : makeHashedId none "Jo" = makeHashedId none "jo" :=
  (c9_default_secret "Jo").2.2 "jo" (by decide)

/-! ### Claim C10 -/

set_option maxRecDepth 100000 in
/-- C10, counterexample to the claim as stated: with `subject = ""` (present
but empty) the synthesized subject is NOT used in the text body — the text
body contains no subject line at all. -/
theorem c10_counterexample :
    ¬ (("New message from Ann" : String).data <:+:
        (renderText ⟨"aaaabbbbccccdddd", "Ann", "ann@example.com",
          some "", "Hi"⟩).data) := by
  decide

/-- C10 (amended): a present-but-empty subject is treated exactly like an
absent one — validation, both renderers, the subject header and the whole
`POST` handler behave identically — and the synthesized subject appears in
the subject header and the HTML body, but not in the text body (whose
subject row is empty). -/
theorem c10_empty_subject (p : Submission) (h : p.subject = some "") :
    sendSchemaIssues p = sendSchemaIssues {p with subject := none} ∧
    renderHtml p = renderHtml {p with subject := none} ∧
    renderText p = renderText {p with subject := none} ∧
    postSubject p = "New message from " ++ p.name ∧
    htmlSubject p = "New message from " ++ sanitizeHtml p.name ∧
    textSubjectLine p.subject = "" ∧
    ∀ (d : String → Option StaffRecord) (envFrom : String)
      (send : EmailRequest → SendOutcome),
      POST d envFrom send p = POST d envFrom send {p with subject := none} := by
  refine ⟨issues_subject_empty p h, renderHtml_subject_empty p h,
    renderText_subject_empty p h, ?_, ?_, ?_,
    fun d envFrom send => POST_subject_empty d envFrom send p h⟩
  · unfold postSubject jsOrStr
    rw [h]
    rfl
  · unfold htmlSubject
    rw [h]
    rfl
  · unfold textSubjectLine
    rw [h]
    rfl

/-- Witness for C10 at a concrete submission with an empty subject. -/
theorem c10_witness :
    renderText ⟨"aaaabbbbccccdddd", "Ann", "ann@example.com", some "", "Hi"⟩ =
      renderText ⟨"aaaabbbbccccdddd", "Ann", "ann@example.com", none, "Hi"⟩ ∧
    postSubject ⟨"aaaabbbbccccdddd", "Ann", "ann@example.com", some "", "Hi"⟩ =
      "New message from " ++ "Ann" :=
  ⟨(c10_empty_subject _ rfl).2.2.1, (c10_empty_subject _ rfl).2.2.2.1⟩
